import Mathlib

/-!
Verification of the `serve` sub-command of the tunneller repository
(`cmd_server.go`).  Byte strings of the Go program are modelled as
`List Char`; each model definition mirrors one place of the source file,
named in its doc comment.
-/

set_option maxRecDepth 16384

namespace Tunneller

/-- The two-character sigil a tunnel client puts in front of its reply so
that the server can tell replies apart from echoed requests; the literal
string of the check at line 127 of `cmd_server.go`. -/
def sigil : List Char := ['X', '-']

/-- The fixed topic namespace of `cmd_server.go` lines 104 and 115. -/
def clientsNS : List Char := ("clients/").toList

/-- Topic naming as written at lines 104 and 115 of `cmd_server.go`:
the namespace string concatenated with the client identifier. -/
def topicName (id : List Char) : List Char := clientsNS ++ id

/-- The reply decoder of the subscription callback, lines 126 to 129 of
`cmd_server.go`: a message is a reply exactly when it starts with the
sigil, and the reply bytes are the message with the first two bytes cut. -/
def decode (msg : List Char) : Option (List Char) :=
  if sigil.isPrefixOf msg then some (msg.drop 2) else none

/-- One run of the subscription callback, lines 115 to 130 of
`cmd_server.go`: on a sigil-carrying message the shared `response`
variable is overwritten with the stripped payload, on any other message
it is left alone. -/
def callbackStep (resp msg : List Char) : List Char :=
  if sigil.isPrefixOf msg then msg.drop 2 else resp

/-- The value of the `response` variable after the callback has run on a
sequence of delivered messages, starting from the empty string set at
line 110 of `cmd_server.go`. -/
def recorded (msgs : List (List Char)) : List Char :=
  msgs.foldl callbackStep []

/-- Go `strings.Split` for a one-character separator, as used at line 85
of `cmd_server.go`: the list of the separator-free runs between the
occurrences of the separator. -/
def splitChar (sep : Char) : List Char → List (List Char)
  | [] => [[]]
  | c :: rest =>
    let r := splitChar sep rest
    if c = sep then [] :: r else (c :: r.headD []) :: r.tail

/-- Host-name splitting of lines 83 to 87 of `cmd_server.go`: when the
host contains a dot the handler keeps the first field of
`strings.Split(host, ".")`, otherwise the host is used as it is. -/
def clientId (host : List Char) : List Char :=
  if host.contains '.' then (splitChar '.' host).headD [] else host

/-- Messages delivered to the subscription callback up to and including
the moment the wait loop reads `response` for the `c`-th time: batch `k`
holds the messages arriving after read `k - 1` and before read `k`
(batch `0` arrives between the subscribe call and the first read). -/
def delivered (batches : Nat → List (List Char)) (c : Nat) : List (List Char) :=
  ((List.range (c + 1)).map batches).flatten

/-- The value the wait loop of `cmd_server.go` observes in `response` at
its `c`-th read, given the delivery schedule `batches`. -/
def respAt (batches : Nat → List (List Char)) (c : Nat) : List Char :=
  recorded (delivered batches c)

/-- The busy-wait loop of lines 144 to 153 of `cmd_server.go`,
`for len(response) == 0 && count < 10`, with the loop counter made
explicit; the fuel argument is `10 - count` and never runs out before
the guard fails.  The result is the final value of `count`, which is the
number of one-second sleeps performed. -/
def waitLoopAux (resp : Nat → List Char) : Nat → Nat → Nat
  | 0, count => count
  | Nat.succ fuel, count =>
    if resp count = [] ∧ count < 10 then waitLoopAux resp fuel (count + 1) else count

/-- The number of polls the wait loop performs before giving up or
observing a reply, starting from `count := 0` at line 144. -/
def waitPolls (resp : Nat → List Char) : Nat := waitLoopAux resp 10 0

/-- The synthesized timeout document of lines 182 to 192 of
`cmd_server.go`, byte for byte (the Go raw string starts right after the
backquote and ends with a newline). -/
def timeoutDoc : List Char :=
  ("HTTP/1.0 200 OK\nContent-type: text/html; charset=UTF-8\nConnection: close\n\n<!DOCTYPE html>\n<html>\n<body>\n<p>We didn\x27t receive a reply from the remote host, despite waiting 10 seconds.</p>\n</body>\n</html>\n").toList

/-- The error text written to the caller at line 95 of `cmd_server.go`
when the request dump fails. -/
def encodeErrMsg (e : List Char) : List Char :=
  ("Error converting the incoming request to plain-text: ").toList ++ e ++ ['\n']

/-- The error text written to the caller at line 134 of `cmd_server.go`
when the subscribe call fails. -/
def subErrMsg (host e : List Char) : List Char :=
  ("Error subscribing to clients/").toList ++ host ++ (" - ").toList ++ e ++ ['\n']

/-- The warning logged at line 164 of `cmd_server.go` when the
unsubscribe call fails. -/
def unsubWarnMsg (host e : List Char) : List Char :=
  ("Failed to unsubscribe from clients/").toList ++ host ++ (" - ").toList ++ e ++ ['\n']

/-- The 500 error body of line 210 of `cmd_server.go` when the response
writer does not support hijacking. -/
def hijackUnsupportedMsg : List Char :=
  ("Webserver doesn\x27t support hijacking").toList

/-- The externally visible actions `HTTPHandler` can perform, in
program order: normal writes through the response writer, `http.Error`
responses, bus operations, log warnings and the raw write on the
hijacked connection. -/
inductive HAction where
  | writeNormal (s : List Char)
  | httpError (s : List Char) (code : Nat)
  | publish (topic payload : List Char)
  | subscribe (topic : List Char)
  | unsubscribe (topic : List Char)
  | logWarn (s : List Char)
  | hijackWrite (s : List Char)
  deriving DecidableEq

/-- The environment one invocation of `HTTPHandler` runs in: the `Host`
header, the result of `httputil.DumpRequest` (error text or dump), the
error states of the publish, subscribe and unsubscribe tokens, whether
the response writer is a hijacker and whether the hijack call itself
fails, and the schedule of bus messages delivered to the callback. -/
structure Env where
  host : List Char
  dumpRequest : Except (List Char) (List Char)
  publishErr : Option (List Char)
  subscribeErr : Option (List Char)
  unsubscribeErr : Option (List Char)
  isHijacker : Bool
  hijackErr : Option (List Char)
  batches : Nat → List (List Char)

/-- The core handler of `cmd_server.go` lines 74 to 228, as the sequence
of externally visible actions it performs.  Note that the publish
token's error is waited upon at line 105 but never inspected, so
`publishErr` is never read; messages arriving after the wait loop's last
read of `response` are not modelled (the callback is torn down by the
unsubscribe that follows at line 161). -/
def HTTPHandler (env : Env) : List HAction :=
  let host := clientId env.host
  match env.dumpRequest with
  | .error e => [.writeNormal (encodeErrMsg e)]
  | .ok requestDump =>
    .publish (topicName host) requestDump ::
    .subscribe (topicName host) ::
    match env.subscribeErr with
    | some e => [.writeNormal (subErrMsg host e)]
    | none =>
      let polls := waitPolls (respAt env.batches)
      let response := respAt env.batches polls
      let response := if response = [] then timeoutDoc else response
      .unsubscribe (topicName host) ::
      ((match env.unsubscribeErr with
        | some e => [.logWarn (unsubWarnMsg host e)]
        | none => []) ++
       (if env.isHijacker then
          match env.hijackErr with
          | some e => [.httpError e 500]
          | none => [.hijackWrite response]
        else [.httpError hijackUnsupportedMsg 500]))

/-- Recognizer for the unsubscribe action of the trace. -/
def isUnsub : HAction → Bool
  | .unsubscribe _ => true
  | _ => false

/-- Recognizer for the actions that put bytes on the caller's
connection, through either the normal path or the hijacked one. -/
def isWrite : HAction → Bool
  | .writeNormal _ => true
  | .httpError _ _ => true
  | .hijackWrite _ => true
  | _ => false

/-- The payloads a trace sends to the caller, in order. -/
def writtenToCaller : List HAction → List (List Char)
  | [] => []
  | .writeNormal s :: rest => s :: writtenToCaller rest
  | .httpError s _ :: rest => s :: writtenToCaller rest
  | .hijackWrite s :: rest => s :: writtenToCaller rest
  | .publish _ _ :: rest => writtenToCaller rest
  | .subscribe _ :: rest => writtenToCaller rest
  | .unsubscribe _ :: rest => writtenToCaller rest
  | .logWarn _ :: rest => writtenToCaller rest

/-- One callback run equals applying the decoder and keeping the old
value when the decoder rejects the message. -/
lemma callbackStep_eq_decode (resp msg : List Char) :
    callbackStep resp msg = (decode msg).getD resp := by
  unfold callbackStep decode
  by_cases h : sigil.isPrefixOf msg <;> simp [h]

/-- Default-valued last element of a cons. -/
lemma getLast?_getD_cons : ∀ (l : List (List Char)) (a b : List Char),
    ((a :: l).getLast?).getD b = (l.getLast?).getD a := by
  intro l
  induction l with
  | nil => intro a b; simp
  | cons c cs ih =>
    intro a b
    rw [List.getLast?_cons_cons, ih c b, ih c a]

/-- Folding the callback over a message sequence leaves the stripped
payload of the last decodable message, or the initial value when none
decodes. -/
lemma foldl_callbackStep_eq (msgs : List (List Char)) :
    ∀ init, msgs.foldl callbackStep init = ((msgs.filterMap decode).getLast?).getD init := by
  induction msgs with
  | nil => intro init; simp
  | cons m rest ih =>
    intro init
    rw [List.foldl_cons, ih, callbackStep_eq_decode]
    cases h : decode m with
    | none => simp [List.filterMap_cons, h]
    | some r => simp [List.filterMap_cons, h, getLast?_getD_cons]

/-- A batch of bare-sigil messages leaves the recorded response empty. -/
lemma recorded_all_sigil : ∀ msgs : List (List Char),
    (∀ m ∈ msgs, m = sigil) → recorded msgs = [] := by
  intro msgs
  induction msgs with
  | nil => intro _; rfl
  | cons m rest ih =>
    intro h
    have hm : m = sigil := h m (List.mem_cons_self m rest)
    have hstep : callbackStep [] m = [] := by rw [hm]; decide
    have hrw : recorded (m :: rest) = recorded rest := by
      simp [recorded, List.foldl_cons, hstep]
    rw [hrw]
    exact ih (fun x hx => h x (List.mem_cons_of_mem _ hx))

/-- Invariant of the busy-wait loop: the final count lies between the
starting count and 10, all earlier reads saw an empty response, and an
early exit can only happen on a non-empty read. -/
lemma waitLoopAux_spec (resp : Nat → List Char) :
    ∀ fuel count, count + fuel = 10 →
      count ≤ waitLoopAux resp fuel count ∧
      waitLoopAux resp fuel count ≤ 10 ∧
      (∀ k, count ≤ k → k < waitLoopAux resp fuel count → resp k = []) ∧
      (waitLoopAux resp fuel count < 10 → resp (waitLoopAux resp fuel count) ≠ []) := by
  intro fuel
  induction fuel with
  | zero =>
    intro count hc
    have h10 : count = 10 := by omega
    subst h10
    simp only [waitLoopAux]
    exact ⟨le_refl _, le_refl _, fun k h1 h2 => absurd h2 (by omega),
      fun h => absurd h (by omega)⟩
  | succ fuel ih =>
    intro count hc
    have hlt : count < 10 := by omega
    by_cases h : resp count = []
    · have hrw : waitLoopAux resp (fuel + 1) count = waitLoopAux resp fuel (count + 1) := by
        simp [waitLoopAux, h, hlt]
      rw [hrw]
      obtain ⟨h1, h2, h3, h4⟩ := ih (count + 1) (by omega)
      refine ⟨by omega, h2, ?_, h4⟩
      intro k hk1 hk2
      rcases Nat.eq_or_lt_of_le hk1 with heq | hk
      · rw [← heq]; exact h
      · exact h3 k hk hk2
    · have hrw : waitLoopAux resp (fuel + 1) count = count := by
        simp [waitLoopAux, h]
      rw [hrw]
      exact ⟨le_refl _, by omega, fun k hk1 hk2 => absurd hk2 (by omega), fun _ => h⟩

/-- The wait loop performs at most ten polls. -/
lemma waitPolls_le (resp : Nat → List Char) : waitPolls resp ≤ 10 :=
  (waitLoopAux_spec resp 10 0 rfl).2.1

/-- Every read before the wait loop's exit saw an empty response. -/
lemma waitPolls_before (resp : Nat → List Char) :
    ∀ k, k < waitPolls resp → resp k = [] :=
  fun k hk => (waitLoopAux_spec resp 10 0 rfl).2.2.1 k (Nat.zero_le k) hk

/-- An early exit of the wait loop saw a non-empty response. -/
lemma waitPolls_early (resp : Nat → List Char) :
    waitPolls resp < 10 → resp (waitPolls resp) ≠ [] :=
  (waitLoopAux_spec resp 10 0 rfl).2.2.2

/-- When the response is still empty at the exit read, the loop ran the
full ten polls. -/
lemma waitPolls_eq_ten_of_empty (resp : Nat → List Char)
    (h : resp (waitPolls resp) = []) : waitPolls resp = 10 := by
  rcases Nat.lt_or_ge (waitPolls resp) 10 with hlt | hge
  · exact absurd h (waitPolls_early resp hlt)
  · exact Nat.le_antisymm (waitPolls_le resp) hge

/-- On the successful-subscribe, successful-hijack path the handler
writes exactly one payload to the caller: the recorded reply, or the
timeout document when the recorded reply is empty. -/
lemma writtenToCaller_HTTPHandler (hst d : List Char) (pe ue : Option (List Char))
    (b : Nat → List (List Char)) :
    writtenToCaller (HTTPHandler ⟨hst, .ok d, pe, none, ue, true, none, b⟩) =
      [if respAt b (waitPolls (respAt b)) = [] then timeoutDoc
       else respAt b (waitPolls (respAt b))] := by
  cases ue <;> rfl

/-- The first field of a single-character split is the run of characters
before the first occurrence of the separator. -/
lemma splitChar_headD (sep : Char) : ∀ l : List Char,
    (splitChar sep l).headD [] = l.takeWhile (fun c => !(c == sep)) := by
  intro l
  induction l with
  | nil => rfl
  | cons c rest ih =>
    by_cases h : c = sep
    · simp [splitChar, h]
    · have ih2 : (splitChar sep rest).head?.getD [] =
          List.takeWhile (fun c => !(c == sep)) rest := by simpa using ih
      simp [splitChar, h, List.takeWhile_cons, ih2]

/-- C4: the reply decoder satisfies the round-trip law — decoding the
sigil followed by any byte sequence returns exactly that sequence, and
decoding any message that does not begin with the sigil returns none. -/
theorem claim_C4 :
    ∀ bs msg : List Char, ¬ sigil <+: msg →
      decode (sigil ++ bs) = some bs ∧ decode msg = none := by
  intro bs msg h
  constructor
  · have hpre : sigil.isPrefixOf (sigil ++ bs) = true :=
      List.isPrefixOf_iff_prefix.mpr (List.prefix_append _ _)
    simp only [decode, hpre, if_true]
    rfl
  · have hpre : sigil.isPrefixOf msg = false := by
      rw [Bool.eq_false_iff]
      intro hc
      exact h (List.isPrefixOf_iff_prefix.mp hc)
    simp [decode, hpre]

/-- C4 witness: the round-trip law evaluated on concrete payloads. -/
theorem claim_C4_witness :
    decode (sigil ++ ("abc").toList) = some (("abc").toList) ∧
      decode (("hello").toList) = none :=
  claim_C4 (("abc").toList) (("hello").toList) (by decide)

/-- C7: the client identifier is the label of the host name before the
first dot when the host contains a dot, and the whole host name
unmodified otherwise; in particular host `bar` gives `bar` and host
`foo.tunnel.example.com` gives `foo`. -/
theorem claim_C7 :
    (∀ host : List Char,
        clientId host =
          if host.contains '.' then host.takeWhile (fun c => !(c == '.')) else host) ∧
      clientId (("bar").toList) = ("bar").toList ∧
      clientId (("foo.tunnel.example.com").toList) = ("foo").toList := by
  refine ⟨?_, by decide, by decide⟩
  intro host
  unfold clientId
  by_cases h : host.contains '.'
  · simp only [h, if_true]
    exact splitChar_headD '.' host
  · have h2 : ¬ ('.' ∈ host) := by simpa using h
    simp [h2]

/-- C8: when the request dump fails the handler writes the error text
through the normal response path and performs no bus operation, no
wait, and no hijack — its whole trace is that one write. -/
theorem claim_C8 :
    ∀ (hst e : List Char) (pe se ue : Option (List Char)) (ihj : Bool)
      (he : Option (List Char)) (b : Nat → List (List Char)),
      HTTPHandler ⟨hst, .error e, pe, se, ue, ihj, he, b⟩ =
        [HAction.writeNormal (encodeErrMsg e)] := by
  intro hst e pe se ue ihj he b
  rfl

/-- C9: topic naming is the fixed namespace concatenated with the
identifier, the same identifier always gives the same topic, and
distinct identifiers give distinct topics. -/
theorem claim_C9 :
    (∀ id : List Char, topicName id = clientsNS ++ id) ∧
      ∀ a b : List Char, topicName a = topicName b ↔ a = b := by
  refine ⟨fun id => rfl, fun a b => ⟨fun h => ?_, fun h => by rw [h]⟩⟩
  exact List.append_cancel_left h

/-- C9 witness: topic naming evaluated on a concrete identifier. -/
theorem claim_C9_witness :
    topicName (("foo").toList) = ("clients/foo").toList ∧
      ("foo").toList = ("foo").toList :=
  ⟨(claim_C9.1 (("foo").toList)).trans (by decide),
    (claim_C9.2 (("foo").toList) (("foo").toList)).mp (by decide)⟩

/-- C1 counterexample: the subscription callback overwrites `response`
on every sigil-carrying message, so after the two messages `X-a` and
`X-b` the recorded reply is `b`, not the first message's payload `a`. -/
theorem claim_C1_cex :
    recorded [("X-a").toList, ("X-b").toList] = ("b").toList ∧
      recorded [("X-a").toList, ("X-b").toList] ≠ ("a").toList := by
  decide

/-- C1 (amended): the reply recorded by the subscription callback is the
payload of the LAST message bearing the sigil, with the sigil stripped,
delivered byte for byte; later sigil-carrying messages replace earlier
ones.  The handler then writes exactly the recorded reply to the caller
(or the timeout document when the recorded reply is empty). -/
theorem claim_C1 :
    (∀ msgs : List (List Char),
        recorded msgs = ((msgs.filterMap decode).getLast?).getD []) ∧
      ∀ (hst d : List Char) (pe ue : Option (List Char)) (b : Nat → List (List Char)),
        writtenToCaller (HTTPHandler ⟨hst, .ok d, pe, none, ue, true, none, b⟩) =
          [if respAt b (waitPolls (respAt b)) = [] then timeoutDoc
           else respAt b (waitPolls (respAt b))] :=
  ⟨fun msgs => foldl_callbackStep_eq msgs [],
    fun hst d pe ue b => writtenToCaller_HTTPHandler hst d pe ue b⟩

/-- A run in which the publish token carries an error: the request dump
succeeded, the subscribe and unsubscribe succeed, the hijack succeeds
and no bus message ever arrives. -/
def pubFailEnv : Env :=
  ⟨("foo.tunnel.example.com").toList, .ok (("GET / HTTP/1.0\n\n").toList),
    some (("publish failed").toList), none, none, true, none, fun _ => []⟩

/-- C2 counterexample: with the publish token in error the handler still
subscribes to the topic and runs the request to completion — nowhere at
lines 104 to 105 of `cmd_server.go` is the publish token's error read. -/
theorem claim_C2_cex :
    pubFailEnv.publishErr = some (("publish failed").toList) ∧
      HAction.subscribe (topicName (("foo").toList)) ∈ HTTPHandler pubFailEnv ∧
      writtenToCaller (HTTPHandler pubFailEnv) = [timeoutDoc] := by
  decide

/-- C2 (amended): the handler waits on the publish token but never
inspects its error, so the outcome of the publish has no influence on
the trace, and whenever the request dump succeeds the handler always
goes on to subscribe to the topic. -/
theorem claim_C2 :
    ∀ (hst : List Char) (dr : Except (List Char) (List Char))
      (pe pe' se ue : Option (List Char)) (ihj : Bool) (he : Option (List Char))
      (b : Nat → List (List Char)) (d : List Char),
      HTTPHandler ⟨hst, dr, pe, se, ue, ihj, he, b⟩ =
        HTTPHandler ⟨hst, dr, pe', se, ue, ihj, he, b⟩ ∧
      HAction.subscribe (topicName (clientId hst)) ∈
        HTTPHandler ⟨hst, .ok d, pe, se, ue, ihj, he, b⟩ := by
  intro hst dr pe pe' se ue ihj he b d
  refine ⟨rfl, ?_⟩
  cases se with
  | none => exact List.mem_cons_of_mem _ (List.mem_cons_self _ _)
  | some e => exact List.mem_cons_of_mem _ (List.mem_cons_self _ _)

/-- C3: when no reply has been recorded by the end of the wait the
handler writes exactly the literal synthesized HTTP/1.0 timeout
document — which carries the `200 OK` status line, the
`Content-type: text/html; charset=UTF-8` and `Connection: close`
headers and the no-reply HTML body — and the loop ran its full ten
polls. -/
theorem claim_C3 :
    ∀ (hst d : List Char) (pe ue : Option (List Char)) (b : Nat → List (List Char)),
      respAt b (waitPolls (respAt b)) = [] →
      writtenToCaller (HTTPHandler ⟨hst, .ok d, pe, none, ue, true, none, b⟩) =
          [timeoutDoc] ∧
        waitPolls (respAt b) = 10 ∧
        (("HTTP/1.0 200 OK\n").toList.isPrefixOf timeoutDoc = true) ∧
        (("Content-type: text/html; charset=UTF-8\n").toList <:+: timeoutDoc) ∧
        (("Connection: close\n").toList <:+: timeoutDoc) ∧
        (("<p>We didn\x27t receive a reply from the remote host, despite waiting 10 seconds.</p>\n").toList <:+: timeoutDoc) := by
  intro hst d pe ue b hempty
  refine ⟨?_, waitPolls_eq_ten_of_empty (respAt b) hempty, by decide, by decide,
    by decide, by decide⟩
  rw [writtenToCaller_HTTPHandler, if_pos hempty]

/-- A delivery schedule on which no message at all arrives. -/
def emptyBatches : Nat → List (List Char) := fun _ => []

/-- C3 witness: a run with no messages ends after ten polls with the
timeout document as the only bytes written to the caller. -/
theorem claim_C3_witness :
    writtenToCaller (HTTPHandler ⟨("foo").toList, .ok (("GET /").toList), none, none,
        none, true, none, emptyBatches⟩) = [timeoutDoc] ∧
      waitPolls (respAt emptyBatches) = 10 ∧
      (("HTTP/1.0 200 OK\n").toList.isPrefixOf timeoutDoc = true) ∧
      (("Content-type: text/html; charset=UTF-8\n").toList <:+: timeoutDoc) ∧
      (("Connection: close\n").toList <:+: timeoutDoc) ∧
      (("<p>We didn\x27t receive a reply from the remote host, despite waiting 10 seconds.</p>\n").toList <:+: timeoutDoc) :=
  claim_C3 (("foo").toList) (("GET /").toList) none none emptyBatches (by decide)

/-- C5: the wait loop always terminates after at most ten polls; every
poll before the exit observed an empty recorded reply, an exit before
the tenth poll observed a non-empty recorded reply, and such an early
exit happens exactly when some poll within the budget observes a
non-empty recorded reply. -/
theorem claim_C5 :
    ∀ b : Nat → List (List Char),
      waitPolls (respAt b) ≤ 10 ∧
        (∀ k, k < waitPolls (respAt b) → respAt b k = []) ∧
        (waitPolls (respAt b) < 10 → respAt b (waitPolls (respAt b)) ≠ []) ∧
        (waitPolls (respAt b) < 10 ↔ ∃ k, k < 10 ∧ respAt b k ≠ []) := by
  intro b
  refine ⟨waitPolls_le (respAt b), waitPolls_before (respAt b),
    waitPolls_early (respAt b), ?_, ?_⟩
  · intro h
    exact ⟨waitPolls (respAt b), h, waitPolls_early (respAt b) h⟩
  · rintro ⟨k, hk10, hkne⟩
    rcases Nat.lt_or_ge (waitPolls (respAt b)) 10 with hlt | hge
    · exact hlt
    · exact absurd (waitPolls_before (respAt b) k (by omega)) hkne

/-- A delivery schedule carrying one reply, delivered just before the
third poll. -/
def oneReplyBatches : Nat → List (List Char) :=
  fun k => if k = 2 then [("X-hi").toList] else []

/-- C5 witness: on a schedule with one reply before the third poll the
loop stays within budget and exits on a non-empty recorded reply. -/
theorem claim_C5_witness :
    waitPolls (respAt oneReplyBatches) ≤ 10 ∧
      respAt oneReplyBatches (waitPolls (respAt oneReplyBatches)) ≠ [] :=
  ⟨(claim_C5 oneReplyBatches).1, (claim_C5 oneReplyBatches).2.2.1 (by decide)⟩

/-- C6: whenever the subscription was established the trace holds
exactly one unsubscribe, no bytes reach the caller before it, and the
payloads written to the caller are identical whether the unsubscribe
token carries an error or not. -/
theorem claim_C6 :
    ∀ (hst d w : List Char) (pe ue : Option (List Char)) (ihj : Bool)
      (he : Option (List Char)) (b : Nat → List (List Char)),
      ((HTTPHandler ⟨hst, .ok d, pe, none, ue, ihj, he, b⟩).filter isUnsub).length = 1 ∧
        (((HTTPHandler ⟨hst, .ok d, pe, none, ue, ihj, he, b⟩).takeWhile
            (fun a => !(isUnsub a))).filter isWrite) = [] ∧
        writtenToCaller (HTTPHandler ⟨hst, .ok d, pe, none, some w, ihj, he, b⟩) =
          writtenToCaller (HTTPHandler ⟨hst, .ok d, pe, none, none, ihj, he, b⟩) := by
  intro hst d w pe ue ihj he b
  cases ue <;> cases ihj <;> cases he <;> exact ⟨rfl, rfl, rfl⟩

/-- C10: a reply consisting of the bare sigil decodes to the empty
payload, which is indistinguishable from no reply at all — the recorded
reply is still empty at the exit read, the wait loop runs its full ten
polls, and the caller receives the synthesized timeout document instead
of an empty response. -/
theorem claim_C10 :
    ∀ (hst d : List Char) (pe ue : Option (List Char)) (b : Nat → List (List Char)),
      (∀ k, ∀ m ∈ b k, m = sigil) →
      decode sigil = some [] ∧
        waitPolls (respAt b) = 10 ∧
        respAt b (waitPolls (respAt b)) = [] ∧
        writtenToCaller (HTTPHandler ⟨hst, .ok d, pe, none, ue, true, none, b⟩) =
          [timeoutDoc] := by
  intro hst d pe ue b hb
  have hresp : ∀ c, respAt b c = [] := by
    intro c
    apply recorded_all_sigil
    intro m hm
    simp only [delivered, List.mem_flatten, List.mem_map] at hm
    obtain ⟨l, ⟨k, _, hkl⟩, hml⟩ := hm
    exact hb k m (hkl ▸ hml)
  have hempty : respAt b (waitPolls (respAt b)) = [] := hresp _
  refine ⟨by decide, waitPolls_eq_ten_of_empty (respAt b) hempty, hempty, ?_⟩
  rw [writtenToCaller_HTTPHandler, if_pos hempty]

/-- A delivery schedule on which every message is the bare sigil. -/
def sigilOnlyBatches : Nat → List (List Char) := fun _ => [sigil]

/-- C10 witness: a run fed only bare-sigil messages times out and writes
the timeout document. -/
theorem claim_C10_witness :
    decode sigil = some [] ∧
      waitPolls (respAt sigilOnlyBatches) = 10 ∧
      respAt sigilOnlyBatches (waitPolls (respAt sigilOnlyBatches)) = [] ∧
      writtenToCaller (HTTPHandler ⟨("foo").toList, .ok (("GET /").toList), none, none,
          none, true, none, sigilOnlyBatches⟩) = [timeoutDoc] :=
  claim_C10 (("foo").toList) (("GET /").toList) none none sigilOnlyBatches
    (fun k m hm => by simpa [sigilOnlyBatches] using hm)

end Tunneller
